import Mathlib

/-!
Shallow embedding of `dns_server.py`: the DNS wire codec
(`DnsRequestGenerator`, `DnsResponseParser`), the `Cash` cache, and the
referral-walk step of `DnsRequestHandler.__get_answer__`, together with
theorems checking the specification's claims against the code.

Conventions of the embedding:
* byte strings are `List Nat` (each element a byte value);
* Python runtime failures are explicit: `PErr.indexError` for an
  out-of-range `data[i]`, `PErr.structError` for `struct.unpack` on a
  buffer of the wrong size (and `struct.pack` of an oversized value),
  `PErr.unicodeError` for a failing strict `bytes.decode()`,
  `PErr.keyError` / `PErr.valueError` / `PErr.typeError` for the
  corresponding exceptions, `PErr.blocked` for an operation that blocks
  forever (a `Lock.acquire` on a held lock, `Queue.put`/`Queue.get` that
  waits), and `PErr.fuelOut` for running out of fuel: a computation that
  returns `.error .fuelOut` for every fuel diverges in the source;
* `time.time()` is an explicit integer-second parameter `now`;
* `random.randint(0, 65535)` is an explicit parameter `idv`.
-/

inductive PErr where
  | indexError
  | structError
  | unicodeError
  | keyError
  | valueError
  | typeError
  | blocked
  | fuelOut
deriving DecidableEq, Repr

/-- Python indexing `data[i]`: negative indices count from the end;
out-of-range raises `IndexError`. -/
def pyIdx (n : Nat) (i : Int) : Option Nat :=
  if i < 0 then
    (if 0 ≤ i + n then some (i + n).toNat else none)
  else if i < n then some i.toNat else none

/-- `data[i]` on a byte string. -/
def pyGet (data : List Nat) (i : Int) : Except PErr Nat :=
  match pyIdx data.length i with
  | some j => .ok (data.getD j 0)
  | none => .error .indexError

/-- Clamp a Python slice bound into `[0, n]`, resolving negatives from
the end. -/
def pyBound (n : Nat) (i : Int) : Nat :=
  if i < 0 then (max 0 (i + n)).toNat else min i.toNat n

/-- Python slicing `data[a:b]` (never raises; clamps both bounds). -/
def pySlice (data : List Nat) (a b : Int) : List Nat :=
  let a' := pyBound data.length a
  let b' := pyBound data.length b
  (data.drop a').take (b' - a')

/-- `struct.unpack('>H', s)`: big-endian 16-bit, exactly two bytes. -/
def unpackH (s : List Nat) : Except PErr Nat :=
  match s with
  | [a, b] => .ok (256 * a + b)
  | _ => .error .structError

/-- `struct.unpack('>I', s)`: big-endian 32-bit, exactly four bytes. -/
def unpackI (s : List Nat) : Except PErr Nat :=
  match s with
  | [a, b, c, d] => .ok (((a * 256 + b) * 256 + c) * 256 + d)
  | _ => .error .structError

/-- `struct.pack('>H', n)`: fails on values that do not fit. -/
def packH (n : Nat) : Except PErr (List Nat) :=
  if n < 65536 then .ok [n / 256, n % 256] else .error .structError

/-- `struct.pack('>B', n)`. -/
def packB (n : Nat) : Except PErr (List Nat) :=
  if n < 256 then .ok [n] else .error .structError

/-- UTF-8 start byte: initial code-point accumulator and the allowed
ranges of the continuation bytes (Python's decoder: no overlongs, no
surrogates, max U+10FFFF). `none` for an invalid start byte. -/
def u8start (b : Nat) : Option (Nat × List (Nat × Nat)) :=
  if b < 128 then some (b, [])
  else if 194 ≤ b ∧ b ≤ 223 then some (b - 192, [(128, 191)])
  else if b = 224 then some (0, [(160, 191), (128, 191)])
  else if 225 ≤ b ∧ b ≤ 236 then some (b - 224, [(128, 191), (128, 191)])
  else if b = 237 then some (13, [(128, 159), (128, 191)])
  else if 238 ≤ b ∧ b ≤ 239 then some (b - 224, [(128, 191), (128, 191)])
  else if b = 240 then some (0, [(144, 191), (128, 191), (128, 191)])
  else if 241 ≤ b ∧ b ≤ 243 then some (b - 240, [(128, 191), (128, 191), (128, 191)])
  else if b = 244 then some (4, [(128, 143), (128, 191), (128, 191)])
  else none

/-- Consume the continuation bytes of one UTF-8 sequence; on a byte out
of range, resume at that byte (Python's maximal-subpart error ranges). -/
def u8conts : Nat → List (Nat × Nat) → List Nat → Option Nat × List Nat
  | cp, [], rest => (some cp, rest)
  | _, _ :: _, [] => (none, [])
  | cp, (lo, hi) :: rs, c :: rest =>
    if lo ≤ c ∧ c ≤ hi then u8conts (cp * 64 + (c - 128)) rs rest
    else (none, c :: rest)

/-- Fueled UTF-8 decoder; each list entry is a decoded character or
`none` for one invalid subpart. Fuel `≥` input length is always enough. -/
def utf8DecodeF : Nat → List Nat → List (Option Char)
  | 0, _ => []
  | _, [] => []
  | fuel + 1, b :: rest =>
    match u8start b with
    | none => none :: utf8DecodeF fuel rest
    | some (cp, rs) =>
      match u8conts cp rs rest with
      | (some c, rest') => some (Char.ofNat c) :: utf8DecodeF fuel rest'
      | (none, rest') => none :: utf8DecodeF fuel rest'

/-- `bytes.decode()` (strict UTF-8): `UnicodeDecodeError` on any invalid
sequence. -/
def pyDecode (s : List Nat) : Except PErr String :=
  let r := utf8DecodeF s.length s
  if r.all Option.isSome then .ok ⟨r.reduceOption⟩ else .error .unicodeError

/-- `bytes.decode(errors='ignore')`: invalid subparts are dropped. -/
def pyDecodeIgnore (s : List Nat) : String :=
  ⟨(utf8DecodeF s.length s).reduceOption⟩

/-- UTF-8 encoding of one character (`str.encode()` per code point). -/
def encChar (c : Char) : List Nat :=
  let n := c.toNat
  if n < 128 then [n]
  else if n < 2048 then [192 + n / 64, 128 + n % 64]
  else if n < 65536 then [224 + n / 4096, 128 + n / 64 % 64, 128 + n % 64]
  else [240 + n / 262144, 128 + n / 4096 % 64, 128 + n / 64 % 64, 128 + n % 64]

/-- `str.encode()`. -/
def utf8Encode (s : String) : List Nat :=
  (s.data.map encChar).flatten

/-- `'.'.join(parts)`. -/
def joinDot (parts : List String) : String :=
  ⟨List.intercalate ['.'] (parts.map String.data)⟩

/-- `url.split('.')`. -/
def pySplitDot (url : String) : List String :=
  (url.data.splitOn '.').map fun l => ⟨l⟩

/-- One decoded record. `DnsResponseParser.__get_question_section__`
stores the type as a *string* (via the `qtypes` table) and no TTL/RDATA;
`__parse_record__`'s compressed branch stores the numeric type plus
TTL and parsed RDATA (`None` for uninterpreted types). -/
inductive Record where
  | q (name : String) (rtype : String) (cls : Nat)
  | rr (name : String) (rtype : Nat) (cls : Nat) (ttl : Nat) (rdata : Option String)
deriving DecidableEq, Repr

/-- `DnsResponseParser.__read_name__`'s while-loop. `acc` is the `name`
list, `size`/`endIndex` the slice bound (`size = 0` means unbounded).
The `192` branch re-reads a name at `data[cursor+1] - 12` and breaks. -/
def read_name_loop :
    Nat → List Nat → Int → Int → Int → List String → Except PErr (List String × Int)
  | 0, _, _, _, _, _ => .error .fuelOut
  | fuel + 1, data, size, endIndex, cursor, acc => do
    let b ← pyGet data cursor
    if b ≠ 0 ∧ (size = 0 ∨ cursor < endIndex) then
      if b = 192 then do
        let nameSize ← pyGet data (cursor + 1)
        let inner ← read_name_loop fuel data 0 ((nameSize : Int) - 12) ((nameSize : Int) - 12) []
        .ok (acc ++ [joinDot inner.1], cursor + 2)
      else do
        let lab ← pyDecode (pySlice data (cursor + 1) (cursor + (b : Int) + 1))
        read_name_loop fuel data size endIndex (cursor + (b : Int) + 1) (acc ++ [lab])
    else .ok (acc, cursor)

/-- `DnsResponseParser.__read_name__(data, cursor, size)`: returns
`('.'.join(name), cursor)`. -/
def read_name (fuel : Nat) (data : List Nat) (cursor size : Int) :
    Except PErr (String × Int) := do
  let r ← read_name_loop fuel data size (cursor + size) cursor []
  .ok (joinDot r.1, r.2)

/-- `DnsResponseParser.__parse_ip__`: `str(ipaddress.IPv4Address(b))`,
which requires exactly four bytes and renders a dotted quad. -/
def parse_ip (data : List Nat) (cursor size : Int) : Except PErr String :=
  match pySlice data cursor (cursor + size) with
  | [a, b, c, d] =>
    .ok (toString a ++ "." ++ toString b ++ "." ++ toString c ++ "." ++ toString d)
  | _ => .error .valueError

/-- Lowercase hex of one 16-bit group, no leading zeros. -/
def hexStr (n : Nat) : String := ⟨Nat.toDigits 16 n⟩

/-- The scan of `ipaddress._compress_hextets`: arguments are the
remaining groups, current index, current-run start and length, and
best-run start and length so far. -/
def bestZeroRunGo : List Nat → Nat → Nat → Nat → Nat → Nat → Nat × Nat
  | [], _, _, _, bestStart, bestLen => (bestStart, bestLen)
  | g :: t, idx, curStart, curLen, bestStart, bestLen =>
    if g = 0 then
      let cs := if curLen = 0 then idx else curStart
      let cl := curLen + 1
      if cl > bestLen then bestZeroRunGo t (idx + 1) cs cl cs cl
      else bestZeroRunGo t (idx + 1) cs cl bestStart bestLen
    else bestZeroRunGo t (idx + 1) 0 0 bestStart bestLen

/-- Leftmost longest run of zero groups (start, length). -/
def bestZeroRun (gs : List Nat) : Nat × Nat :=
  bestZeroRunGo gs 0 0 0 0 0

/-- `str(ipaddress.IPv6Address(...))` on eight 16-bit groups: RFC 5952
text, compressing the leftmost longest run of two or more zero groups. -/
def ipv6_string (gs : List Nat) : String :=
  let hex := gs.map hexStr
  let (bs, bl) := bestZeroRun gs
  if bl > 1 then
    String.intercalate ":" (hex.take bs) ++ "::" ++
      String.intercalate ":" (hex.drop (bs + bl))
  else String.intercalate ":" hex

/-- `DnsResponseParser.__parse_ipv6__`: sixteen bytes required. -/
def parse_ipv6 (data : List Nat) (cursor size : Int) : Except PErr String :=
  let bytes := pySlice data cursor (cursor + size)
  if bytes.length = 16 then
    .ok (ipv6_string ((List.range 8).map fun i =>
      256 * bytes.getD (2 * i) 0 + bytes.getD (2 * i + 1) 0))
  else .error .valueError

/-- `DnsResponseParser.__parse_mx__`. -/
def parse_mx (fuel : Nat) (data : List Nat) (cursor size : Int) :
    Except PErr String := do
  let pref ← unpackH (pySlice data cursor (cursor + 2))
  let mx ← read_name fuel data (cursor + 2) (size - 2)
  .ok (toString pref ++ " " ++ mx.1)

/-- `DnsResponseParser.__parse_data__`: returns `None` (here `none`) for
type codes other than NS, A, AAAA, MX. -/
def parse_data (fuel : Nat) (data : List Nat) (cursor size : Int) (t : Nat) :
    Except PErr (Option String) :=
  if t = 2 then (read_name fuel data cursor size).map fun r => some r.1
  else if t = 1 then (parse_ip data cursor size).map some
  else if t = 28 then (parse_ipv6 data cursor size).map some
  else if t = 15 then (parse_mx fuel data cursor size).map some
  else .ok none

/-- `DnsResponseParser.qtypes` lookup (raises `KeyError` when absent). -/
def qtypeName (n : Nat) : Except PErr String :=
  if n = 1 then .ok "A"
  else if n = 28 then .ok "AAAA"
  else if n = 15 then .ok "MX"
  else if n = 2 then .ok "NS"
  else if n = 41 then .ok "OPT"
  else .error .keyError

/-- `DnsResponseParser.__get_question_section__`. -/
def get_question_section (fuel : Nat) (data : List Nat) (cursor : Int) :
    Except PErr (Record × Int) := do
  let nm ← read_name fuel data cursor 0
  let c := nm.2 + 1
  let tcode ← unpackH (pySlice data c (c + 2))
  let tname ← qtypeName tcode
  let cls ← unpackH (pySlice data (c + 2) (c + 4))
  .ok (.q nm.1 tname cls, c + 4)

/-- `DnsResponseParser.__parse_record__`: a record whose current byte is
exactly `192` is read as a compressed-name resource record (name taken
from `data[cursor+1] - 12`); anything else is read in question form. -/
def parse_record (fuel : Nat) (data : List Nat) (cursor : Int) :
    Except PErr (Record × Int) := do
  let b ← pyGet data cursor
  if b = 192 then do
    let p ← pyGet data (cursor + 1)
    let nm ← read_name fuel data ((p : Int) - 12) 0
    let t ← unpackH (pySlice data (cursor + 2) (cursor + 4))
    let cls ← unpackH (pySlice data (cursor + 4) (cursor + 6))
    let ttl ← unpackI (pySlice data (cursor + 6) (cursor + 10))
    let sz ← unpackH (pySlice data (cursor + 10) (cursor + 12))
    let d ← parse_data fuel data (cursor + 12) (sz : Int) t
    .ok (.rr nm.1 t cls ttl d, cursor + 12 + (sz : Int))
  else get_question_section fuel data cursor

/-- Parse `count` consecutive entries of one section. -/
def parse_section (fuel : Nat) (data : List Nat) :
    Nat → Int → Except PErr (List Record × Int)
  | 0, c => .ok ([], c)
  | n + 1, c => do
    let r ← parse_record fuel data c
    let rest ← parse_section fuel data n r.2
    .ok (r.1 :: rest.1, rest.2)

/-- Decoded header: `id`, the eight MSB-first flag fields, four counts. -/
structure DnsHeader where
  id : Nat
  qr : Nat
  opcode : Nat
  aa : Nat
  tc : Nat
  rd : Nat
  ra : Nat
  z : Nat
  rcode : Nat
  qdcount : Nat
  ancount : Nat
  nscount : Nat
  arcount : Nat
deriving DecidableEq, Repr

/-- `DnsResponseParser.__parse_header__`: `struct.unpack('>HHHHHH')`
plus the flag decomposition loop (peeling fields LSB-first). -/
def parse_header (s : List Nat) : Except PErr DnsHeader :=
  match s with
  | [i1, i2, f1, f2, q1, q2, a1, a2, n1, n2, r1, r2] =>
    let f := 256 * f1 + f2
    .ok { id := 256 * i1 + i2
          qr := f / 32768 % 2
          opcode := f / 2048 % 16
          aa := f / 1024 % 2
          tc := f / 512 % 2
          rd := f / 256 % 2
          ra := f / 128 % 2
          z := f / 16 % 8
          rcode := f % 16
          qdcount := 256 * q1 + q2
          ancount := 256 * a1 + a2
          nscount := 256 * n1 + n2
          arcount := 256 * r1 + r2 }
  | _ => .error .structError

/-- The `result` dict of `__parse_body__`: a section key is present iff
its count is nonzero (the key is only created inside the loop). -/
structure DnsBody where
  question : Option (List Record)
  answer : Option (List Record)
  authority : Option (List Record)
  additional : Option (List Record)
deriving DecidableEq, Repr

/-- `DnsResponseParser.__parse_body__`: the four sections parsed in
order with one running cursor. -/
def parse_body (fuel : Nat) (data : List Nat) (h : DnsHeader) :
    Except PErr DnsBody := do
  let q ← parse_section fuel data h.qdcount 0
  let an ← parse_section fuel data h.ancount q.2
  let ns ← parse_section fuel data h.nscount an.2
  let ar ← parse_section fuel data h.arcount ns.2
  .ok { question := if h.qdcount = 0 then none else some q.1
        answer := if h.ancount = 0 then none else some an.1
        authority := if h.nscount = 0 then none else some ns.1
        additional := if h.arcount = 0 then none else some ar.1 }

structure DnsResponse where
  header : DnsHeader
  body : DnsBody
deriving DecidableEq, Repr

/-- `DnsResponseParser.parse_response`: header from `response[:12]`,
body from `response[12:]`. -/
def parse_response (fuel : Nat) (response : List Nat) :
    Except PErr DnsResponse := do
  let h ← parse_header (response.take 12)
  let b ← parse_body fuel (response.drop 12) h
  .ok ⟨h, b⟩

/-- `DnsRequestGenerator.qtypes`. -/
def qtypeCode (s : String) : Option Nat :=
  if s = "A" then some 1
  else if s = "AAAA" then some 28
  else if s = "MX" then some 15
  else if s = "NS" then some 2
  else none

/-- `DnsRequestGenerator.__generate_header__` with the random 16-bit id
made explicit. -/
def generate_header (idv opcode rd : Nat) : Except PErr (List Nat) := do
  let i ← packH idv
  let f ← packH ((opcode * 8 + rd) * 256)
  let qd ← packH 1
  let an ← packH 0
  let ns ← packH 0
  let ar ← packH 0
  .ok (i ++ f ++ qd ++ an ++ ns ++ ar)

/-- The label loop of `__generate_body__`: one length byte
(`struct.pack('>B', len(label))`) then `label.encode()`. -/
def encode_labels : List String → Except PErr (List Nat)
  | [] => .ok []
  | l :: t => do
    let len ← packB l.length
    let rest ← encode_labels t
    .ok (len ++ utf8Encode l ++ rest)

/-- `DnsRequestGenerator.__generate_body__`: unknown query types raise
`ValueError`. -/
def generate_body (url rtype : String) : Except PErr (List Nat) :=
  match qtypeCode rtype with
  | none => .error .valueError
  | some t => do
    let enc ← encode_labels (pySplitDot url)
    let z ← packB 0
    let tc ← packH t
    let cc ← packH 1
    .ok (enc ++ z ++ tc ++ cc)

/-- `DnsRequestGenerator.generate_request`. -/
def generate_request (idv : Nat) (url rtype : String) : Except PErr (List Nat) := do
  let h ← generate_header idv 0 0
  let b ← generate_body url rtype
  .ok (h ++ b)

/-- One `CashRecord` object: the decoded key, the decoded response text,
the absolute deadline (`let` in the source — a Lean keyword, so `letv`
here), and the second-chance bit `r` (constructor sets it true). -/
structure CashRecord where
  request : String
  response : String
  letv : Int
  r : Bool
deriving DecidableEq, Repr

/-- The source aliases one `CashRecord` object from both `self.records`
and `self.queue`; the embedding makes the aliasing explicit with an
arena `store` of records, the dict and the queue holding indices. -/
structure Cash where
  maxsize : Nat
  store : List CashRecord
  records : List (String × Nat)
  queue : List Nat
  lock : Bool
deriving DecidableEq, Repr

/-- A fresh `Cash(maxsize)` when no `cash.json` exists. -/
def emptyCash (maxsize : Nat) : Cash :=
  { maxsize := maxsize, store := [], records := [], queue := [], lock := false }

/-- Python `dict` lookup on an insertion-ordered association list. -/
def dictGet (m : List (String × Nat)) (k : String) : Option Nat :=
  match m with
  | [] => none
  | (k', v) :: t => if k' = k then some v else dictGet t k

/-- `d[k] = v`: overwrite in place or append. -/
def dictSet (m : List (String × Nat)) (k : String) (v : Nat) : List (String × Nat) :=
  match m with
  | [] => [(k, v)]
  | (k', v') :: t => if k' = k then (k', v) :: t else (k', v') :: dictSet t k v

/-- `d.pop(k)` ignoring the `KeyError` case (used where presence was
just checked). -/
def dictRemove (m : List (String × Nat)) (k : String) : List (String × Nat) :=
  match m with
  | [] => []
  | (k', v) :: t => if k' = k then t else (k', v) :: dictRemove t k

/-- `d.pop(k)`: `KeyError` when the key is absent. -/
def dictPop (m : List (String × Nat)) (k : String) :
    Except PErr (List (String × Nat)) :=
  match dictGet m k with
  | some _ => .ok (dictRemove m k)
  | none => .error .keyError

def dfltRecord : CashRecord := { request := "", response := "", letv := 0, r := true }

/-- `self.queue.full()`: true iff `0 < maxsize ≤ qsize`. -/
def queueFull (s : Cash) : Bool :=
  0 < s.maxsize ∧ s.maxsize ≤ s.queue.length

/-- The `while self.queue.full():` eviction loop of `Cash.put`: pop the
head; an unexpired record with its bit set is re-enqueued with the bit
cleared, anything else is dropped from the dict. -/
def evict : Nat → Cash → Int → Except PErr Cash
  | 0, _, _ => .error .fuelOut
  | fuel + 1, s, now =>
    if queueFull s then
      match s.queue with
      | [] => .error .blocked
      | i :: qs =>
        let rcd := s.store.getD i dfltRecord
        if rcd.r = true ∧ rcd.letv > now then
          evict fuel
            { s with store := s.store.set i { rcd with r := false }, queue := qs ++ [i] }
            now
        else
          match dictPop s.records rcd.request with
          | .ok m => evict fuel { s with records := m, queue := qs } now
          | .error e => .error e
    else .ok s

/-- `Cash.put(request, response, ttl)` at wall-clock time `now`: both
byte arguments are text-decoded with `errors='ignore'`; a zero-capacity
queue returns early **with the lock still held**; otherwise evict, then
insert the new record (bit true, deadline `ttl + now`) into dict and
queue and release the lock. -/
def Cash.put (fuel : Nat) (s : Cash) (request response : List Nat)
    (ttl now : Int) : Except PErr Cash :=
  let req := pyDecodeIgnore request
  let resp := pyDecodeIgnore response
  if s.lock then .error .blocked else
  let s := { s with lock := true }
  if s.maxsize = 0 then .ok s
  else do
    let s ← evict fuel s now
    let rcd : CashRecord := { request := req, response := resp, letv := ttl + now, r := true }
    .ok { s with
      store := s.store ++ [rcd]
      records := dictSet s.records req s.store.length
      queue := s.queue ++ [s.store.length]
      lock := false }

/-- `Cash.get(key)`: a falsy (empty) key or a miss returns `None`
**without releasing the lock**; a hit sets the record's bit true,
releases, and returns `record.response.encode()`. No deadline check. -/
def Cash.get (s : Cash) (key : String) : Except PErr (Option (List Nat) × Cash) :=
  if s.lock then .error .blocked else
  let s := { s with lock := true }
  match dictGet s.records key with
  | none => .ok (none, s)
  | some i =>
    if key = "" then .ok (none, s)
    else
      let rcd := s.store.getD i dfltRecord
      .ok (some (utf8Encode rcd.response),
        { s with store := s.store.set i { rcd with r := true }, lock := false })

/-- `Cash.__contains__(item)`: no locking at all; an expired record is
popped from the dict (the queue is untouched) before returning false. -/
def Cash.contains (s : Cash) (item : String) (now : Int) : Bool × Cash :=
  match dictGet s.records item with
  | none => (false, s)
  | some i =>
    let rcd := s.store.getD i dfltRecord
    if rcd.letv < now then (false, { s with records := dictRemove s.records item })
    else (true, s)

/-- One serialized snapshot record: `CashRecord.to_dict()`. -/
structure SavedRec where
  response : String
  letv : Int
  r : Bool
deriving DecidableEq, Repr

/-- `Cash.save`: the `cash.json` contents, modelled as the keyed list
the JSON text denotes (Python `json` round-trips `str`/number/bool
values exactly), in dict iteration order. -/
def Cash.save (s : Cash) : List (String × SavedRec) :=
  s.records.map fun kv =>
    (kv.1,
      { response := (s.store.getD kv.2 dfltRecord).response
        letv := (s.store.getD kv.2 dfltRecord).letv
        r := (s.store.getD kv.2 dfltRecord).r })

/-- `Cash.restore` from parsed `cash.json` contents at time `now`:
records already expired are skipped; the rest are re-inserted in file
order (`self.queue.put` blocks when the queue is full). -/
def Cash.restore (s : Cash) : List (String × SavedRec) → Int → Except PErr Cash
  | [], _ => .ok s
  | (k, sv) :: t, now =>
    if sv.letv < now then Cash.restore s t now
    else if queueFull s then .error .blocked
    else
      Cash.restore
        { s with
          store := s.store ++ [{ request := k, response := sv.response, letv := sv.letv, r := sv.r }]
          records := dictSet s.records k s.store.length
          queue := s.queue ++ [s.store.length] } t now

/-- `root_server_address`. -/
def root_server_address : String × Nat := ("198.41.0.4", 53)

/-- `record['type'] == 1` as evaluated on either dict shape: the
question form holds the type as a string, so the comparison is false. -/
def rtypeIs1 : Record → Bool
  | .q _ _ _ => false
  | .rr _ t _ _ _ => t == 1

/-- What one iteration of `__get_answer__`'s loop decides to do next
after parsing a reply. -/
inductive RStep where
  | answered
  | useGlue (addr : Option String)
  | keepTarget
  | resolveNS (nsname : String)
deriving DecidableEq, Repr

/-- The referral-branch structure of `DnsRequestHandler.__get_answer__`
(lines 282–293): `break` when an answer section exists; when the
additional section exists **and has more than one entry**, take the
first type-1 record's `data` (keeping the old target when none
matches); otherwise resolve `body['authority'][0]['data']` from the
root. A question-form record there has no `'data'` key (`KeyError`);
a `None` data would crash `generate_request` (uncaught, modelled as `typeError`). -/
def stepChoice (b : DnsBody) : Except PErr RStep :=
  if b.answer.isSome then .ok .answered
  else if (b.additional.getD []).length > 1 then
    match (b.additional.getD []).find? rtypeIs1 with
    | some (.rr _ _ _ _ d) => .ok (.useGlue d)
    | some (.q _ _ _) => .error .keyError
    | none => .ok .keepTarget
  else
    match b.authority with
    | none => .error .keyError
    | some [] => .error .indexError
    | some (.q _ _ _ :: _) => .error .keyError
    | some (.rr _ _ _ _ none :: _) => .error .typeError
    | some (.rr _ _ _ _ (some nsname) :: _) => .ok (.resolveNS nsname)

/-- `DnsRequestHandler.__get_answer__`: the referral walk, with the
upstream network as a deterministic oracle `net` from target address to
reply bytes and the sub-query's random id modelled as 0. -/
def get_answer (net : String × Nat → List Nat) (pfuel : Nat) :
    Nat → List Nat → String × Nat → Except PErr (DnsResponse × List Nat)
  | 0, _, _ => .error .fuelOut
  | fuel + 1, request, target => do
    let raw := net target
    let resp ← parse_response pfuel raw
    match stepChoice resp.body with
    | .error e => .error e
    | .ok .answered => .ok (resp, raw)
    | .ok (.useGlue (some a)) => get_answer net pfuel fuel request (a, 53)
    | .ok (.useGlue none) => .error .typeError
    | .ok .keepTarget => get_answer net pfuel fuel request target
    | .ok (.resolveNS nsname) => do
      let subq ← generate_request 0 nsname "A"
      let sub ← get_answer net pfuel fuel subq root_server_address
      match sub.1.body.answer with
      | some (.rr _ _ _ _ (some a) :: _) => get_answer net pfuel fuel request (a, 53)
      | some (.rr _ _ _ _ none :: _) => .error .typeError
      | some (.q _ _ _ :: _) => .error .keyError
      | some [] => .error .indexError
      | none => .error .keyError

/-- Modelled from the spec: "the low 14 bits are an offset from the
start of the DNS message". -/
def low14 (b0 b1 : Nat) : Nat := b0 % 64 * 256 + b1

/-- Modelled from the spec: "resolves the pointed-to name at that
offset ... relative to the beginning of the whole message" — an
uncompressed label sequence read at an absolute offset of the whole
message, for comparison with the decoder's body-relative resolution. -/
def specLabelsAt : Nat → List Nat → Int → Except PErr (List String × Int)
  | 0, _, _ => .error .fuelOut
  | fuel + 1, m, off => do
    let b ← pyGet m off
    if b = 0 then .ok ([], off)
    else if b ≤ 63 then do
      let lab ← pyDecode (pySlice m (off + 1) (off + (b : Int) + 1))
      let rest ← specLabelsAt fuel m (off + (b : Int) + 1)
      .ok (lab :: rest.1, rest.2)
    else .error .valueError

/-- The byte stream `__generate_body__`'s label loop emits for a label
list whose lengths fit one byte: length byte, then the label's UTF-8
bytes. -/
def encLabels : List String → List Nat
  | [] => []
  | l :: t => l.length :: (utf8Encode l ++ encLabels t)

/-- Valid domain-name labels: nonempty, at most 63 characters, ASCII. -/
def validL (L : List String) : Prop :=
  ∀ l ∈ L, l.data ≠ [] ∧ l.length ≤ 63 ∧ ∀ c ∈ l.data, c.toNat < 128

instance (L : List String) : Decidable (validL L) :=
  inferInstanceAs (Decidable (∀ l ∈ L, _ ∧ _ ∧ ∀ c ∈ l.data, _))

/-- A 14-byte message whose question name is a compression pointer to
itself (message offset 12, i.e. its own position). -/
def cycMsg : List Nat := [0, 0, 0, 0, 0, 1, 0, 0, 0, 0, 0, 0, 192, 12]

/-- A truncated five-byte input. -/
def truncMsg : List Nat := [1, 2, 3, 4, 5]

/-- A message whose question name has a 64-byte label. -/
def longLabelMsg : List Nat :=
  [0, 0, 0, 0, 0, 1, 0, 0, 0, 0, 0, 0] ++ [64] ++ List.replicate 64 97 ++ [0, 0, 1, 0, 1]

/-- A message whose question starts with the two bytes `0xC1 0x61`: a
compression pointer by the spec's definition (top two bits of the first
byte set, 14-bit offset 353), with the name `"b"` placed at message
offset 353. The decoder instead treats `0xC1` as a label length of 193. -/
def c3Msg : List Nat :=
  [0, 0, 0, 0, 0, 1, 0, 0, 0, 0, 0, 0] ++ [193] ++ List.replicate 193 97
    ++ [0, 0, 1, 0, 1] ++ List.replicate 142 0 ++ [1, 98, 0]

/-- An additional-section A record (compressed name pointing at message
offset 44, address 1.2.3.4). -/
def glueRec : List Nat := [192, 44, 0, 1, 0, 1, 0, 0, 0, 60, 0, 4, 1, 2, 3, 4]

/-- A 47-byte referral reply: no answers, two additional A records for
1.2.3.4, the pointed-to name `"x"` at message offset 44. -/
def refMsg : List Nat :=
  [0, 0, 0, 0, 0, 0, 0, 0, 0, 0, 0, 2] ++ glueRec ++ glueRec ++ [1, 120, 0]

/-- An authority-section NS record (compressed name, RDATA the
uncompressed name `"ns"`). -/
def authRec : List Nat := [192, 44, 0, 2, 0, 1, 0, 0, 0, 60, 0, 4, 2, 110, 115, 0]

/-- A referral reply with no answers, one authority NS record for
`"ns"`, and exactly **one** additional A record (glue for 1.2.3.4). -/
def replyOneGlue : List Nat :=
  [0, 0, 0, 0, 0, 0, 0, 0, 0, 1, 0, 1] ++ authRec ++ glueRec ++ [1, 120, 0]

/-- A one-entry cache whose mutex is currently held. -/
def lockedCash : Cash :=
  { maxsize := 3
    store := [{ request := "k", response := "v", letv := 100, r := true }]
    records := [("k", 0)]
    queue := [0]
    lock := true }

deriving instance DecidableEq for Except

/-- C6: the persistence round-trip is lossy. `put` stores
`response.decode(errors='ignore')`; for the response bytes `[0xFF]`
(not valid UTF-8) the stored text is `""`, so after save → restore into
a fresh cache, `contains` is true but `get` returns `b""`, not the
original bytes — contradicting "get(K) returns exactly the original
response bytes R". -/
theorem c6_persistence_lossy :
    (do
      let s1 ← Cash.put 5 (emptyCash 3) [107] [255] 100 0
      let s2 ← Cash.restore (emptyCash 3) (Cash.save s1) 1
      let g ← Cash.get s2 "k"
      pure ((Cash.contains s2 "k" 1).1, g.1) : Except PErr (Bool × Option (List Nat)))
      = .ok (true, some []) ∧ ([] : List Nat) ≠ [255] := by
  decide

/-- C9: the lock discipline fails on three of the claimed paths. A
`get` miss on an empty (capacity-3) cache returns with the mutex still
held; a `put` on a capacity-0 cache returns with the mutex still held;
and `__contains__` never acquires the mutex at all — it computes its
answer even while another holder keeps the mutex (where `get` on the
same state would block forever). -/
theorem c9_lock_discipline_bug :
    Cash.get (emptyCash 3) "k" = .ok (none, { emptyCash 3 with lock := true }) ∧
    Cash.put 5 (emptyCash 0) [107] [118] 10 0 = .ok { emptyCash 0 with lock := true } ∧
    (Cash.contains lockedCash "k" 0).1 = true ∧
    Cash.get lockedCash "k" = .error .blocked := by
  refine ⟨by decide, by decide, by decide, by decide⟩

/-- C10: the cache key is the `errors='ignore'` text decoding of the
fingerprint bytes, which is not injective: the fingerprints
`[0x61, 0xFF]` and `[0x61]` are distinct but decode to the same key
`"a"`, and a response stored under the first is returned (`contains`
true, `get` yields it) for a lookup carrying the second. -/
theorem c10_lossy_cache_key :
    ([97, 255] : List Nat) ≠ [97] ∧
    pyDecodeIgnore [97, 255] = pyDecodeIgnore [97] ∧
    (do
      let s1 ← Cash.put 5 (emptyCash 3) [97, 255] [114] 100 0
      let g ← Cash.get s1 (pyDecodeIgnore [97])
      pure ((Cash.contains s1 (pyDecodeIgnore [97]) 0).1, g.1)
        : Except PErr (Bool × Option (List Nat)))
      = .ok (true, some [114]) := by
  refine ⟨by decide, by decide, by decide⟩

/-- C2's counterexample: `Cash.get` performs no deadline check (it
never consults the clock — it has no time parameter at all). An entry
inserted with `ttl = 0` at time 0 has deadline 0, which has passed at
read time 10, yet `get` still returns its response bytes. -/
theorem c2_counterexample :
    (do
      let s1 ← Cash.put 5 (emptyCash 3) [107] [118] 0 0
      let g ← Cash.get s1 "k"
      pure ((s1.store.getD 0 dfltRecord).letv, g.1) : Except PErr (Int × Option (List Nat)))
      = .ok (0, some [118]) ∧ (0 : Int) < 10 := by
  refine ⟨by decide, by decide⟩

/-- C8's counterexample: a reply with no answer whose additional
section holds exactly one record — an A-record glue for 1.2.3.4 — does
*not* make the resolver target that address: because of the
`len(body['additional']) > 1` test it takes the authority branch and
resolves the NS name `"ns"` from the root instead. -/
theorem c8_counterexample :
    (parse_response 50 replyOneGlue).map (fun r =>
      (r.body.answer, (r.body.additional.getD []).find? rtypeIs1, stepChoice r.body))
      = .ok (none, some (.rr "x" 1 1 60 (some "1.2.3.4")), .ok (.resolveNS "ns")) ∧
    RStep.resolveNS "ns" ≠ .useGlue (some "1.2.3.4") := by
  refine ⟨by decide, by decide⟩

theorem cyc_loop (fuel : Nat) : ∀ acc, read_name_loop fuel [192, 12] 0 0 0 acc = .error .fuelOut := by
  induction fuel with
  | zero => intro _; rfl
  | succ n ih =>
    intro acc
    rw [show read_name_loop (n + 1) [192, 12] 0 0 0 acc
        = (read_name_loop n [192, 12] 0 0 0 []).bind
            (fun inner => .ok (acc ++ [joinDot inner.1], (0 : Int) + 2)) from rfl,
      ih []]
    rfl

theorem cyc_read_name (fuel : Nat) : read_name fuel (cycMsg.drop 12) 0 0 = .error .fuelOut := by
  rw [show read_name fuel (cycMsg.drop 12) 0 0
      = (read_name_loop fuel [192, 12] 0 0 0 []).bind
          (fun r => Except.ok (joinDot r.1, r.2)) from rfl,
    cyc_loop fuel []]
  rfl

theorem cyc_record (fuel : Nat) : parse_record fuel [192, 12] 0 = .error .fuelOut := by
  rw [show parse_record fuel [192, 12] 0
      = (read_name fuel (cycMsg.drop 12) 0 0).bind
          (fun _ => (Except.error PErr.structError : Except PErr (Record × Int))) from rfl,
    cyc_read_name fuel]
  rfl

theorem cyc_section (fuel : Nat) : parse_section fuel [192, 12] 1 0 = .error .fuelOut := by
  rw [show parse_section fuel [192, 12] 1 0
      = (parse_record fuel [192, 12] 0).bind
          (fun r => (parse_section fuel [192, 12] 0 r.2).bind
            (fun rest => Except.ok (r.1 :: rest.1, rest.2))) from rfl,
    cyc_record fuel]
  rfl

theorem cyc_parse (fuel : Nat) : parse_response fuel cycMsg = .error .fuelOut := by
  rw [show parse_response fuel cycMsg
      = ((parse_section fuel [192, 12] 1 0).bind
          (fun q => Except.ok (DnsBody.mk (some q.1) none none none))).bind
          (fun b => Except.ok (DnsResponse.mk
            (DnsHeader.mk 0 0 0 0 0 0 0 0 0 1 0 0 0) b)) from rfl,
    cyc_section fuel]
  rfl

/-- C1: the decoder has no `MalformedMessage` handling at all. On
`cycMsg` — a question name that is a compression pointer to itself —
`parse_response` runs out of fuel for *every* fuel, i.e. the source
recurses forever. On a truncated five-byte input it fails with
`struct.error` (an uncaught exception, for every fuel). And a label of
length 64 (> 63) is not rejected: that message parses successfully. -/
theorem c1_no_malformed_handling :
    (∀ fuel, parse_response fuel cycMsg = .error .fuelOut) ∧
    (∀ fuel, parse_response fuel truncMsg = .error .structError) ∧
    (parse_response 50 longLabelMsg).isOk = true :=
  ⟨cyc_parse, fun _ => rfl, by decide⟩

/-- C4: the referral walk is unbounded: `__get_answer__` is
`while True` with no iteration counter. Against an upstream that always
replies with `refMsg` — a no-answer referral whose additional section
carries A-record glue for 1.2.3.4 — the loop re-targets (1.2.3.4, 53)
forever: it runs out of fuel for every fuel and never produces any
error (no `ReferralLoop` exists in the code). The second conjunct
checks the driving step: `refMsg` parses to a no-answer body whose
chosen step is the glue target. -/
theorem c4_unbounded_referrals :
    (∀ fuel request target,
      get_answer (fun _ => refMsg) 100 fuel request target = .error .fuelOut) ∧
    (parse_response 100 refMsg).map (fun r => (r.body.answer, stepChoice r.body))
      = .ok (none, .ok (.useGlue (some "1.2.3.4"))) := by
  refine ⟨fun fuel => ?_, by decide⟩
  induction fuel with
  | zero => intro _ _; rfl
  | succ n ih => intro req t; exact ih req ("1.2.3.4", 53)

theorem dictGet_not_mem : ∀ (m : List (String × Nat)) (k : String),
    k ∉ m.map Prod.fst → dictGet m k = none := by
  intro m k h
  induction m with
  | nil => rfl
  | cons p t ih =>
    obtain ⟨a, b⟩ := p
    simp only [List.map_cons, List.mem_cons, not_or] at h
    simp only [dictGet, if_neg (fun he : a = k => h.1 he.symm)]
    exact ih h.2

theorem dictGet_dictRemove (m : List (String × Nat)) (k : String)
    (h : (m.map Prod.fst).Nodup) : dictGet (dictRemove m k) k = none := by
  induction m with
  | nil => rfl
  | cons p t ih =>
    obtain ⟨hp, ht⟩ := List.nodup_cons.1 h
    obtain ⟨a, b⟩ := p
    by_cases hk : a = k
    · subst hk
      simp only [dictRemove, if_pos rfl]
      exact dictGet_not_mem t a hp
    · simp only [dictRemove, if_neg hk, dictGet, if_neg hk]
      exact ih ht

/-- C2 amended: `__contains__` behaves as claimed — it returns true iff
an entry with deadline `≥ now` exists, and an entry observed expired is
removed from the records dict (though it stays in the eviction queue)
before false is returned — but `get` performs no deadline check at all:
for any nonempty key present in the dict it returns the stored response
bytes, deadline passed or not, and removes nothing. -/
theorem c2_amended (s : Cash) (key : String) (now : Int)
    (hnd : (s.records.map Prod.fst).Nodup) :
    ((Cash.contains s key now).1 = true ↔
      ∃ i, dictGet s.records key = some i ∧ ¬ (s.store.getD i dfltRecord).letv < now) ∧
    (∀ i, dictGet s.records key = some i → (s.store.getD i dfltRecord).letv < now →
      dictGet ((Cash.contains s key now).2).records key = none) ∧
    (s.lock = false → key ≠ "" → ∀ i, dictGet s.records key = some i →
      (Cash.get s key).map Prod.fst
        = .ok (some (utf8Encode (s.store.getD i dfltRecord).response))) := by
  refine ⟨?_, ?_, ?_⟩
  · unfold Cash.contains
    cases h : dictGet s.records key with
    | none =>
      refine iff_of_false (by simp) ?_
      rintro ⟨j, hj, -⟩
      exact Option.noConfusion hj
    | some i =>
      dsimp only
      by_cases hexp : (s.store.getD i dfltRecord).letv < now
      · rw [if_pos hexp]
        refine iff_of_false (by simp) ?_
        rintro ⟨j, hj, hle⟩
        cases hj
        exact hle hexp
      · rw [if_neg hexp]
        exact iff_of_true rfl ⟨i, rfl, hexp⟩
  · intro i hi hexp
    unfold Cash.contains
    rw [hi]
    dsimp only
    rw [if_pos hexp]
    exact dictGet_dictRemove s.records key hnd
  · intro hlock hkey i hi
    unfold Cash.get
    simp only [hlock, Bool.false_eq_true, if_false, hi, if_neg hkey]
    rfl

/-- C8 amended: the glue branch fires only when the additional section
has *more than one* entry. In that case, if some record has numeric
type code 1, the resolver targets the first such record's address;
with exactly one additional record it instead resolves the first
authority record's name from the root (see the counterexample). -/
theorem c8_amended (b : DnsBody) (adds : List Record) (nm : String)
    (ty cls ttl : Nat) (d : Option String)
    (hans : b.answer = none)
    (hadds : b.additional = some adds)
    (hlen : 1 < adds.length)
    (hfind : adds.find? rtypeIs1 = some (.rr nm ty cls ttl d)) :
    stepChoice b = .ok (.useGlue d) := by
  unfold stepChoice
  rw [hans, hadds]
  simp only [Option.isSome_none, Bool.false_eq_true, if_false, Option.getD_some]
  rw [if_pos hlen, hfind]

theorem c8_amended_witness :
    (DnsBody.mk none none none
        (some [Record.rr "x" 1 1 60 (some "1.2.3.4"), Record.rr "y" 1 1 60 (some "5.6.7.8")])).answer = none ∧
    1 < ([Record.rr "x" 1 1 60 (some "1.2.3.4"), Record.rr "y" 1 1 60 (some "5.6.7.8")].length) ∧
    stepChoice (DnsBody.mk none none none
        (some [Record.rr "x" 1 1 60 (some "1.2.3.4"), Record.rr "y" 1 1 60 (some "5.6.7.8")]))
      = .ok (.useGlue (some "1.2.3.4")) :=
  ⟨rfl, by decide,
    c8_amended _ _ "x" 1 1 60 (some "1.2.3.4") rfl rfl (by decide) (by decide)⟩

theorem c2_amended_witness :
    ((({ lockedCash with lock := false } : Cash).records.map Prod.fst).Nodup) ∧
    (((Cash.contains { lockedCash with lock := false } "k" 0).1 = true ↔
        ∃ i, dictGet ({ lockedCash with lock := false } : Cash).records "k" = some i ∧
          ¬ (({ lockedCash with lock := false } : Cash).store.getD i dfltRecord).letv < 0) ∧
      (∀ i, dictGet ({ lockedCash with lock := false } : Cash).records "k" = some i →
        (({ lockedCash with lock := false } : Cash).store.getD i dfltRecord).letv < 0 →
        dictGet ((Cash.contains { lockedCash with lock := false } "k" 0).2).records "k" = none) ∧
      (({ lockedCash with lock := false } : Cash).lock = false → "k" ≠ "" →
        ∀ i, dictGet ({ lockedCash with lock := false } : Cash).records "k" = some i →
        (Cash.get { lockedCash with lock := false } "k").map Prod.fst
          = .ok (some (utf8Encode
              (({ lockedCash with lock := false } : Cash).store.getD i dfltRecord).response)))) :=
  ⟨by decide, c2_amended _ "k" 0 (by decide)⟩

theorem pyIdx_nonneg (n : Nat) (i : Int) (hi : 0 ≤ i) :
    pyIdx n i = if i < (n : Int) then some i.toNat else none := by
  unfold pyIdx
  rw [if_neg (not_lt.2 hi)]

theorem pyGet_drop12 (m : List Nat) (i : Int) (hi : 0 ≤ i) :
    pyGet (m.drop 12) i = pyGet m (i + 12) := by
  unfold pyGet
  rw [List.length_drop, pyIdx_nonneg _ _ hi, pyIdx_nonneg _ _ (by omega)]
  by_cases hlt : i + 12 < (m.length : Int)
  · rw [if_pos (show i < ((m.length - 12 : Nat) : Int) by omega), if_pos hlt]
    dsimp only
    rw [show (i + 12).toNat = 12 + i.toNat by omega]
    simp only [List.getD_eq_getElem?_getD, List.getElem?_drop]
  · rw [if_neg (show ¬ i < ((m.length - 12 : Nat) : Int) by omega), if_neg hlt]

theorem pySlice_nat (l : List Nat) (a b : Nat) :
    pySlice l (a : Int) (b : Int) = (l.drop a).take (b - a) := by
  unfold pySlice pyBound
  rw [if_neg (show ¬ (a : Int) < 0 by omega), if_neg (show ¬ (b : Int) < 0 by omega)]
  simp only [Int.toNat_ofNat]
  by_cases ha : a ≤ l.length
  · rw [min_eq_left ha]
    by_cases hb : b ≤ l.length
    · rw [min_eq_left hb]
    · rw [min_eq_right (le_of_not_le hb)]
      rw [List.take_of_length_le (by simp only [List.length_drop]; omega),
        List.take_of_length_le (by simp only [List.length_drop]; omega)]
  · rw [min_eq_right (le_of_not_le ha), List.drop_length,
      List.drop_eq_nil_of_le (le_of_not_le ha), List.take_nil, List.take_nil]

theorem pySlice_drop12 (m : List Nat) (a b : Nat) :
    pySlice (m.drop 12) (a : Int) (b : Int) = pySlice m ((a : Int) + 12) ((b : Int) + 12) := by
  rw [pySlice_nat]
  rw [show ((a : Int) + 12) = ((a + 12 : Nat) : Int) by push_cast; ring]
  rw [show ((b : Int) + 12) = ((b + 12 : Nat) : Int) by push_cast; ring]
  rw [pySlice_nat, List.drop_drop]
  rw [show a + 12 = 12 + a from Nat.add_comm a 12]
  congr 1
  omega

theorem ebind_ok {α β : Type} (a : α) (f : α → Except PErr β) :
    (Except.ok a >>= f) = f a := rfl

theorem ebind_err {α β : Type} (er : PErr) (f : α → Except PErr β) :
    ((Except.error er : Except PErr α) >>= f) = .error er := rfl

theorem specLabels_to_loop :
    ∀ fuel (m : List Nat) (o : Nat) (L : List String) (e : Int),
      12 ≤ o →
      specLabelsAt fuel m (o : Int) = .ok (L, e) →
      ∀ acc endIdx, read_name_loop fuel (m.drop 12) 0 endIdx ((o : Int) - 12) acc
        = .ok (acc ++ L, e - 12) := by
  intro fuel
  induction fuel with
  | zero =>
    intro m o L e ho hspec acc endIdx
    exact Except.noConfusion hspec
  | succ n ih =>
    intro m o L e ho hspec acc endIdx
    unfold specLabelsAt at hspec
    unfold read_name_loop
    have hget : pyGet (m.drop 12) ((o : Int) - 12) = pyGet m (o : Int) := by
      rw [pyGet_drop12 m _ (by omega)]
      congr 1
      ring
    cases hb : pyGet m (o : Int) with
    | error err =>
      rw [hb, ebind_err] at hspec
      exact Except.noConfusion hspec
    | ok b =>
      rw [hb, ebind_ok] at hspec
      rw [hget, hb, ebind_ok]
      by_cases hb0 : b = 0
      · subst hb0
        rw [if_pos rfl] at hspec
        simp only [Except.ok.injEq, Prod.mk.injEq] at hspec
        obtain ⟨hL, he⟩ := hspec
        subst hL
        subst he
        rw [if_neg (show ¬ ((0 : Nat) ≠ 0 ∧ ((0 : Int) = 0 ∨ (o : Int) - 12 < endIdx))
          from fun h => h.1 rfl)]
        simp
      · by_cases hb63 : b ≤ 63
        · rw [if_neg hb0, if_pos hb63] at hspec
          cases hdec : pyDecode (pySlice m ((o : Int) + 1) ((o : Int) + (b : Int) + 1)) with
          | error err =>
            rw [hdec, ebind_err] at hspec
            exact Except.noConfusion hspec
          | ok lab =>
            rw [hdec, ebind_ok] at hspec
            cases hrest : specLabelsAt n m ((o : Int) + (b : Int) + 1) with
            | error err =>
              rw [hrest, ebind_err] at hspec
              exact Except.noConfusion hspec
            | ok pr =>
              obtain ⟨L', e'⟩ := pr
              rw [hrest, ebind_ok] at hspec
              simp only [Except.ok.injEq, Prod.mk.injEq] at hspec
              obtain ⟨hL, he⟩ := hspec
              subst hL
              subst he
              rw [if_pos (show b ≠ 0 ∧ ((0 : Int) = 0 ∨ (o : Int) - 12 < endIdx)
                from ⟨hb0, Or.inl rfl⟩)]
              rw [if_neg (show ¬ b = 192 by omega)]
              have hsl : pySlice (m.drop 12) ((o : Int) - 12 + 1) ((o : Int) - 12 + (b : Int) + 1)
                  = pySlice m ((o : Int) + 1) ((o : Int) + (b : Int) + 1) := by
                rw [show ((o : Int) - 12 + 1) = ((o - 11 : Nat) : Int) by omega]
                rw [show ((o : Int) - 12 + (b : Int) + 1) = ((o - 11 + b : Nat) : Int) by omega]
                rw [pySlice_drop12]
                congr 1 <;> omega
              rw [hsl, hdec, ebind_ok]
              rw [show ((o : Int) - 12 + (b : Int) + 1) = ((o + b + 1 : Nat) : Int) - 12 by push_cast; ring]
              rw [ih m (o + b + 1) L' e' (by omega)
                (by rw [show ((o + b + 1 : Nat) : Int) = (o : Int) + (b : Int) + 1 by push_cast; ring]
                    exact hrest) (acc ++ [lab]) endIdx]
              simp
        · rw [if_neg hb0, if_neg hb63] at hspec
          exact Except.noConfusion hspec

theorem joinDot_singleton (s : String) : joinDot [s] = s := by
  unfold joinDot
  simp [List.intercalate]

/-- C3 amended: only a pointer whose first byte is exactly `0xC0` is
recognised; its second byte (which then equals the low 14 bits of the
two-byte sequence) is taken as an offset from the start of the whole
DNS message, and the name is resolved there: reading the uncompressed
label sequence at absolute offset `o` of the whole message (`≥ 12`,
i.e. past the header) is what `__read_name__` returns for the pointer,
because it reads `data[cursor+1] - 12` in the body, which parses the
whole message at offset `data[cursor+1]`. -/
theorem c3_amended (fuel : Nat) (m : List Nat) (c : Int) (o : Nat) (L : List String) (e : Int)
    (hptr : pyGet (m.drop 12) c = .ok 192)
    (hoff : pyGet (m.drop 12) (c + 1) = .ok o)
    (ho : 12 ≤ o)
    (hname : specLabelsAt fuel m (o : Int) = .ok (L, e)) :
    read_name (fuel + 1) (m.drop 12) c 0 = .ok (joinDot L, c + 2) := by
  unfold read_name
  unfold read_name_loop
  rw [hptr, ebind_ok]
  rw [if_pos (show (192 : Nat) ≠ 0 ∧ ((0 : Int) = 0 ∨ c < c + 0) from ⟨by omega, Or.inl rfl⟩)]
  rw [if_pos rfl]
  rw [hoff, ebind_ok]
  rw [specLabels_to_loop fuel m o L e ho hname [] ((o : Int) - 12), ebind_ok, ebind_ok]
  simp [joinDot_singleton]

theorem c3_amended_witness :
    pyGet (([0, 0, 0, 0, 0, 0, 0, 0, 0, 0, 0, 0, 192, 14, 1, 98, 0] : List Nat).drop 12) 0
      = .ok 192 ∧
    pyGet (([0, 0, 0, 0, 0, 0, 0, 0, 0, 0, 0, 0, 192, 14, 1, 98, 0] : List Nat).drop 12) 1
      = .ok 14 ∧
    specLabelsAt 5 [0, 0, 0, 0, 0, 0, 0, 0, 0, 0, 0, 0, 192, 14, 1, 98, 0] 14
      = .ok (["b"], 16) ∧
    read_name 6 (([0, 0, 0, 0, 0, 0, 0, 0, 0, 0, 0, 0, 192, 14, 1, 98, 0] : List Nat).drop 12) 0 0
      = .ok ("b", 2) :=
  ⟨by decide, by decide, by decide,
    by exact c3_amended 5 _ 0 14 ["b"] 16 (by decide) (by decide) (by decide) (by decide)⟩

set_option maxRecDepth 4000 in
theorem c3_counterexample :
    192 ≤ c3Msg.getD 12 0 ∧
    low14 (c3Msg.getD 12 0) (c3Msg.getD 13 0) = 353 ∧
    (specLabelsAt 50 c3Msg 353).map Prod.fst = .ok ["b"] ∧
    (parse_response 300 c3Msg).map (fun r => r.body.question)
      = .ok (some [Record.q (⟨List.replicate 193 'a'⟩ : String) "A" 1]) ∧
    (⟨List.replicate 193 'a'⟩ : String) ≠ joinDot ["b"] := by
  refine ⟨by decide, by decide, by decide, by decide, by decide⟩

/-- C7: starting from an empty capacity-3 cache, four `put`s with
distinct (decoded) keys, far-future deadlines and no intervening reads
leave exactly the entries K2, K3, K4 in the dict (in that order) and
K1 evicted, exactly as the second-chance protocol prescribes: during
the fourth `put` the three queued entries are popped, their bits
flipped false and re-enqueued; the fourth pop sees K1's bit false and
discards it from queue and dict. -/
theorem c7_second_chance
    (rq1 rq2 rq3 rq4 rs1 rs2 rs3 rs4 : List Nat) (k1 k2 k3 k4 : String)
    (t1 t2 t3 t4 n1 n2 n3 n4 : Int)
    (h1 : pyDecodeIgnore rq1 = k1) (h2 : pyDecodeIgnore rq2 = k2)
    (h3 : pyDecodeIgnore rq3 = k3) (h4 : pyDecodeIgnore rq4 = k4)
    (d12 : k1 ≠ k2) (d13 : k1 ≠ k3) (d14 : k1 ≠ k4)
    (d23 : k2 ≠ k3) (d24 : k2 ≠ k4) (d34 : k3 ≠ k4)
    (f1 : t1 + n1 > n4) (f2 : t2 + n2 > n4) (f3 : t3 + n3 > n4) :
    ∃ s1 s2 s3 s4,
      Cash.put 10 (emptyCash 3) rq1 rs1 t1 n1 = .ok s1 ∧
      Cash.put 10 s1 rq2 rs2 t2 n2 = .ok s2 ∧
      Cash.put 10 s2 rq3 rs3 t3 n3 = .ok s3 ∧
      Cash.put 10 s3 rq4 rs4 t4 n4 = .ok s4 ∧
      s4.records.map Prod.fst = [k2, k3, k4] ∧
      dictGet s4.records k1 = none := by
  refine ⟨⟨3, [⟨k1, pyDecodeIgnore rs1, t1 + n1, true⟩], [(k1, 0)], [0], false⟩,
    ⟨3, [⟨k1, pyDecodeIgnore rs1, t1 + n1, true⟩, ⟨k2, pyDecodeIgnore rs2, t2 + n2, true⟩],
      [(k1, 0), (k2, 1)], [0, 1], false⟩,
    ⟨3, [⟨k1, pyDecodeIgnore rs1, t1 + n1, true⟩, ⟨k2, pyDecodeIgnore rs2, t2 + n2, true⟩,
        ⟨k3, pyDecodeIgnore rs3, t3 + n3, true⟩],
      [(k1, 0), (k2, 1), (k3, 2)], [0, 1, 2], false⟩,
    ⟨3, [⟨k1, pyDecodeIgnore rs1, t1 + n1, false⟩, ⟨k2, pyDecodeIgnore rs2, t2 + n2, false⟩,
        ⟨k3, pyDecodeIgnore rs3, t3 + n3, false⟩, ⟨k4, pyDecodeIgnore rs4, t4 + n4, true⟩],
      [(k2, 1), (k3, 2), (k4, 3)], [1, 2, 3], false⟩,
    ?_, ?_, ?_, ?_, ?_, ?_⟩
  · simp [Cash.put, evict, queueFull, dictSet, emptyCash, h1, ebind_ok]
  · simp [Cash.put, evict, queueFull, dictSet, h2, d12, ebind_ok]
  · simp [Cash.put, evict, queueFull, dictSet, h3, d13, d23, ebind_ok]
  · simp [Cash.put, evict, queueFull, dictSet, dictPop, dictGet, dictRemove, h4,
      d12, d13, d14, d23, d24, d34, d12.symm, d13.symm, d14.symm, d23.symm, d24.symm, d34.symm,
      f1, f2, f3, ebind_ok]
  · simp [d24, d34, d24.symm, d34.symm]
  · simp [dictGet, d12, d13, d14, d12.symm, d13.symm, d14.symm]

theorem c7_second_chance_witness :
    pyDecodeIgnore [75, 49] = "K1" ∧ ("K1" : String) ≠ "K2" ∧ (100 : Int) + 0 > 0 ∧
    (∃ s1 s2 s3 s4,
      Cash.put 10 (emptyCash 3) [75, 49] [118] 100 0 = .ok s1 ∧
      Cash.put 10 s1 [75, 50] [118] 100 0 = .ok s2 ∧
      Cash.put 10 s2 [75, 51] [118] 100 0 = .ok s3 ∧
      Cash.put 10 s3 [75, 52] [118] 100 0 = .ok s4 ∧
      s4.records.map Prod.fst = ["K2", "K3", "K4"] ∧
      dictGet s4.records "K1" = none) :=
  ⟨by decide, by decide, by decide,
    c7_second_chance [75, 49] [75, 50] [75, 51] [75, 52] [118] [118] [118] [118]
      "K1" "K2" "K3" "K4" 100 100 100 100 0 0 0 0
      (by decide) (by decide) (by decide) (by decide)
      (by decide) (by decide) (by decide) (by decide) (by decide) (by decide)
      (by decide) (by decide) (by decide)⟩

theorem encChar_ascii (c : Char) (h : c.toNat < 128) : encChar c = [c.toNat] := by
  unfold encChar
  rw [if_pos h]

theorem flatten_encChar_ascii (cs : List Char) (h : ∀ c ∈ cs, c.toNat < 128) :
    (cs.map encChar).flatten = cs.map Char.toNat := by
  induction cs with
  | nil => rfl
  | cons c t ih =>
    simp only [List.map_cons, List.flatten_cons,
      encChar_ascii c (h c (List.mem_cons_self c t))]
    rw [ih (fun x hx => h x (List.mem_cons_of_mem _ hx))]
    rfl

theorem utf8Encode_ascii (l : String) (h : ∀ c ∈ l.data, c.toNat < 128) :
    utf8Encode l = l.data.map Char.toNat := by
  unfold utf8Encode
  exact flatten_encChar_ascii l.data h

theorem utf8DecodeF_ascii (cs : List Char) (h : ∀ c ∈ cs, c.toNat < 128) :
    ∀ fuel, cs.length ≤ fuel → utf8DecodeF fuel (cs.map Char.toNat) = cs.map some := by
  induction cs with
  | nil => intro fuel _; cases fuel <;> rfl
  | cons c cs ih =>
    intro fuel hf
    cases fuel with
    | zero => simp at hf
    | succ f =>
      have hc : c.toNat < 128 := h c (List.mem_cons_self c cs)
      show utf8DecodeF (f + 1) (c.toNat :: cs.map Char.toNat) = some c :: cs.map some
      unfold utf8DecodeF u8start
      rw [if_pos hc]
      show some (Char.ofNat c.toNat) :: utf8DecodeF f (cs.map Char.toNat) = some c :: cs.map some
      rw [Char.ofNat_toNat]
      rw [ih (fun x hx => h x (List.mem_cons_of_mem _ hx)) f (by simp at hf; omega)]

theorem reduceOption_map_some (l : List α) : (l.map some).reduceOption = l := by
  induction l with
  | nil => rfl
  | cons x t ih => simp [List.reduceOption_cons_of_some, ih]

theorem pyDecode_utf8Encode (l : String) (h : ∀ c ∈ l.data, c.toNat < 128) :
    pyDecode (utf8Encode l) = .ok l := by
  rw [utf8Encode_ascii l h]
  unfold pyDecode
  rw [List.length_map, utf8DecodeF_ascii l.data h l.data.length (le_refl _)]
  rw [if_pos (by simp)]
  rw [reduceOption_map_some]

theorem pyGet_at (pre : List Nat) (x : Nat) (rest : List Nat) :
    pyGet (pre ++ x :: rest) (pre.length : Int) = .ok x := by
  unfold pyGet
  rw [pyIdx_nonneg _ _ (by omega)]
  rw [if_pos (by simp only [List.length_append, List.length_cons]; push_cast; omega)]
  simp only [Int.toNat_ofNat]
  rw [List.getD_eq_getElem?_getD, List.getElem?_append_right (le_refl _)]
  simp

theorem pySlice_exact (pre mid post : List Nat) :
    pySlice (pre ++ (mid ++ post)) (pre.length : Int)
      ((pre.length + mid.length : Nat) : Int) = mid := by
  rw [pySlice_nat, List.drop_left]
  rw [show pre.length + mid.length - pre.length = mid.length from by omega]
  exact List.take_left mid post

theorem encode_labels_ok : ∀ L, validL L → encode_labels L = .ok (encLabels L) := by
  intro L h
  induction L with
  | nil => rfl
  | cons l t ih =>
    obtain ⟨hne, hlen, hascii⟩ := h l (List.mem_cons_self l t)
    have ht : validL t := fun x hx => h x (List.mem_cons_of_mem _ hx)
    unfold encode_labels
    rw [show packB l.length = .ok [l.length] from by unfold packB; rw [if_pos (by omega)]]
    rw [ebind_ok, ih ht, ebind_ok]
    rfl

theorem generate_header_ok (idv : Nat) (h : idv < 65536) :
    generate_header idv 0 0 = .ok [idv / 256, idv % 256, 0, 0, 0, 1, 0, 0, 0, 0, 0, 0] := by
  unfold generate_header packH
  rw [if_pos h]
  rfl

theorem generate_body_ok (url rtype : String) (t : Nat)
    (ht : qtypeCode rtype = some t) (ht256 : 0 < t ∧ t < 256) (hv : validL (pySplitDot url)) :
    generate_body url rtype = .ok (encLabels (pySplitDot url) ++ [0, 0, t, 0, 1]) := by
  unfold generate_body
  rw [ht]
  dsimp only
  rw [encode_labels_ok _ hv, ebind_ok]
  unfold packB packH
  rw [if_pos (show (0 : Nat) < 256 by omega), if_pos (show t < 65536 by omega)]
  rw [ebind_ok]
  rw [if_pos (show (1 : Nat) < 65536 by omega), ebind_ok, ebind_ok]
  rw [Nat.div_eq_of_lt ht256.2, Nat.mod_eq_of_lt ht256.2]
  simp

theorem loop_enc : ∀ (L : List String) (pre rest : List Nat) (acc : List String)
    (fuel : Nat) (endIdx : Int), validL L → L.length + 1 ≤ fuel →
    read_name_loop fuel (pre ++ (encLabels L ++ 0 :: rest)) 0 endIdx (pre.length : Int) acc
      = .ok (acc ++ L, ((pre.length + (encLabels L).length : Nat) : Int)) := by
  intro L
  induction L with
  | nil =>
    intro pre rest acc fuel endIdx hv hf
    cases fuel with
    | zero => omega
    | succ f =>
      unfold read_name_loop
      rw [show pre ++ (encLabels [] ++ 0 :: rest) = pre ++ 0 :: rest from by
        simp [encLabels]]
      rw [pyGet_at, ebind_ok]
      rw [if_neg (show ¬ ((0 : Nat) ≠ 0 ∧ ((0 : Int) = 0 ∨ (pre.length : Int) < endIdx))
        from fun hx => hx.1 rfl)]
      simp [encLabels]
  | cons l t ih =>
    intro pre rest acc fuel endIdx hv hf
    obtain ⟨hne, hlen, hascii⟩ := hv l (List.mem_cons_self l t)
    have hvt : validL t := fun x hx => hv x (List.mem_cons_of_mem _ hx)
    have hlpos : l.length ≠ 0 := fun h0 => hne (List.length_eq_zero.mp h0)
    have hlen_enc : (utf8Encode l).length = l.length := by
      rw [utf8Encode_ascii l hascii, List.length_map]
      rfl
    cases fuel with
    | zero => omega
    | succ f =>
      unfold read_name_loop
      rw [show pre ++ (encLabels (l :: t) ++ 0 :: rest)
          = pre ++ l.length :: (utf8Encode l ++ (encLabels t ++ 0 :: rest)) from by
        simp [encLabels]]
      rw [pyGet_at, ebind_ok]
      rw [if_pos (show l.length ≠ 0 ∧ ((0 : Int) = 0 ∨ (pre.length : Int) < endIdx)
        from ⟨hlpos, Or.inl rfl⟩)]
      rw [if_neg (show ¬ l.length = 192 by omega)]
      have hslice : pySlice (pre ++ l.length :: (utf8Encode l ++ (encLabels t ++ 0 :: rest)))
          ((pre.length : Int) + 1) ((pre.length : Int) + (l.length : Int) + 1)
          = utf8Encode l := by
        rw [show ((pre.length : Int) + 1) = (((pre ++ [l.length]).length : Nat) : Int) from by
          simp]
        rw [show ((pre.length : Int) + (l.length : Int) + 1)
            = (((pre ++ [l.length]).length + (utf8Encode l).length : Nat) : Int) from by
          simp [hlen_enc]; ring]
        rw [show pre ++ l.length :: (utf8Encode l ++ (encLabels t ++ 0 :: rest))
            = (pre ++ [l.length]) ++ (utf8Encode l ++ (encLabels t ++ 0 :: rest)) from by
          simp]
        exact pySlice_exact (pre ++ [l.length]) (utf8Encode l) (encLabels t ++ 0 :: rest)
      rw [hslice, pyDecode_utf8Encode l hascii, ebind_ok]
      rw [show ((pre.length : Int) + (l.length : Int) + 1)
          = (((pre ++ l.length :: utf8Encode l).length : Nat) : Int) from by
        simp [hlen_enc]; ring]
      rw [show pre ++ l.length :: (utf8Encode l ++ (encLabels t ++ 0 :: rest))
          = (pre ++ l.length :: utf8Encode l) ++ (encLabels t ++ 0 :: rest) from by
        simp]
      rw [ih (pre ++ l.length :: utf8Encode l) rest (acc ++ [l]) f endIdx hvt (by
        simp at hf
        omega)]
      simp [encLabels, hlen_enc]
      ring

theorem unpackH_byte (t : Nat) : unpackH [0, t] = .ok t := by
  unfold unpackH
  norm_num

theorem gq_enc (L : List String) (t : Nat) (tn : String) (fuel : Nat)
    (hv : validL L) (hf : L.length + 1 ≤ fuel)
    (hq : qtypeName t = .ok tn) :
    get_question_section fuel (encLabels L ++ 0 :: [0, t, 0, 1]) 0
      = .ok (.q (joinDot L) tn 1, ((encLabels L).length : Int) + 5) := by
  unfold get_question_section read_name
  have hloop := loop_enc L [] [0, t, 0, 1] [] fuel ((0 : Int) + 0) hv hf
  simp only [List.nil_append, List.length_nil, Nat.cast_zero, Nat.zero_add] at hloop
  rw [hloop, ebind_ok, ebind_ok]
  dsimp only
  rw [show pySlice (encLabels L ++ [0, 0, t, 0, 1])
        (((encLabels L).length : Int) + 1) (((encLabels L).length : Int) + 1 + 2)
      = pySlice ((encLabels L ++ [0]) ++ ([0, t] ++ [0, 1]))
        (((encLabels L ++ [0]).length : Nat) : Int)
        (((encLabels L ++ [0]).length + ([0, t] : List Nat).length : Nat) : Int) from by
    rw [show (encLabels L ++ [0, 0, t, 0, 1] : List Nat)
        = (encLabels L ++ [0]) ++ ([0, t] ++ [0, 1]) from by simp]
    congr 1 <;> simp]
  rw [pySlice_exact, unpackH_byte, ebind_ok, hq, ebind_ok]
  rw [show pySlice (encLabels L ++ [0, 0, t, 0, 1])
        (((encLabels L).length : Int) + 1 + 2) (((encLabels L).length : Int) + 1 + 4)
      = pySlice ((encLabels L ++ [0] ++ [0, t]) ++ ([0, 1] ++ []))
        (((encLabels L ++ [0] ++ [0, t]).length : Nat) : Int)
        (((encLabels L ++ [0] ++ [0, t]).length + ([0, 1] : List Nat).length : Nat) : Int) from by
    rw [show (encLabels L ++ [0, 0, t, 0, 1] : List Nat)
        = (encLabels L ++ [0] ++ [0, t]) ++ ([0, 1] ++ []) from by simp]
    congr 1 <;> simp <;> ring]
  rw [pySlice_exact, unpackH_byte, ebind_ok]
  norm_num
  ring

theorem parse_record_enc (L : List String) (t : Nat) (tn : String) (fuel : Nat)
    (hv : validL L) (hne : L ≠ []) (hf : L.length + 1 ≤ fuel)
    (hq : qtypeName t = .ok tn) :
    parse_record fuel (encLabels L ++ 0 :: [0, t, 0, 1]) 0
      = .ok (.q (joinDot L) tn 1, ((encLabels L).length : Int) + 5) := by
  cases L with
  | nil => exact absurd rfl hne
  | cons l t1 =>
    obtain ⟨hne1, hlen1, _⟩ := hv l (List.mem_cons_self _ _)
    unfold parse_record
    have hb : pyGet (encLabels (l :: t1) ++ 0 :: [0, t, 0, 1]) 0 = .ok l.length := by
      have h := pyGet_at [] l.length ((utf8Encode l ++ encLabels t1) ++ 0 :: [0, t, 0, 1])
      simpa [encLabels] using h
    rw [hb, ebind_ok]
    rw [if_neg (show ¬ l.length = 192 by omega)]
    exact gq_enc (l :: t1) t tn fuel hv hf hq

theorem parse_body_enc (L : List String) (t : Nat) (tn : String) (fuel : Nat) (hd : DnsHeader)
    (hv : validL L) (hne : L ≠ []) (hf : L.length + 1 ≤ fuel) (hq : qtypeName t = .ok tn)
    (h1 : hd.qdcount = 1) (h2 : hd.ancount = 0) (h3 : hd.nscount = 0) (h4 : hd.arcount = 0) :
    parse_body fuel (encLabels L ++ 0 :: [0, t, 0, 1]) hd
      = .ok (DnsBody.mk (some [.q (joinDot L) tn 1]) none none none) := by
  unfold parse_body
  rw [h1, h2, h3, h4]
  rw [show parse_section fuel (encLabels L ++ 0 :: [0, t, 0, 1]) 1 0
      = (parse_record fuel (encLabels L ++ 0 :: [0, t, 0, 1]) 0).bind
          (fun r => (parse_section fuel (encLabels L ++ 0 :: [0, t, 0, 1]) 0 r.2).bind
            (fun rest => Except.ok (r.1 :: rest.1, rest.2))) from rfl]
  rw [parse_record_enc L t tn fuel hv hne hf hq]
  rfl

theorem joinDot_pySplitDot (url : String) : joinDot (pySplitDot url) = url := by
  unfold joinDot pySplitDot
  rw [List.map_map]
  rw [show (String.data ∘ fun l : List Char => (⟨l⟩ : String)) = id from funext fun l => rfl]
  rw [List.map_id, List.intercalate_splitOn]

theorem parse_header_gen (idv : Nat) :
    parse_header [idv / 256, idv % 256, 0, 0, 0, 1, 0, 0, 0, 0, 0, 0]
      = .ok (DnsHeader.mk idv 0 0 0 0 0 0 0 0 1 0 0 0) := by
  unfold parse_header
  dsimp only
  rw [show 256 * (idv / 256) + idv % 256 = idv from Nat.div_add_mod idv 256]

/-- C5: encode-then-decode round trip for the question. For every
16-bit id, every valid name (nonempty ASCII labels of lengths 1–63)
and every qtype among A, AAAA, MX, NS, `generate_request` succeeds and
`parse_response` (with fuel at least one more than the label count)
returns QDCOUNT = 1, every flag field 0, zero counts elsewhere, and
the single question `(url, qtype, class 1)`. -/
theorem c5_roundtrip (idv : Nat) (url rtype : String)
    (hid : idv < 65536)
    (hty : rtype = "A" ∨ rtype = "AAAA" ∨ rtype = "MX" ∨ rtype = "NS")
    (hval : validL (pySplitDot url)) :
    ∃ req, generate_request idv url rtype = .ok req ∧
      ∀ fuel, (pySplitDot url).length + 1 ≤ fuel →
        parse_response fuel req = .ok
          (DnsResponse.mk (DnsHeader.mk idv 0 0 0 0 0 0 0 0 1 0 0 0)
            (DnsBody.mk (some [.q url rtype 1]) none none none)) := by
  have hcn : ∃ tc, qtypeCode rtype = some tc ∧ qtypeName tc = .ok rtype ∧ 0 < tc ∧ tc < 256 := by
    rcases hty with rfl | rfl | rfl | rfl
    · exact ⟨1, rfl, rfl, by omega, by omega⟩
    · exact ⟨28, rfl, rfl, by omega, by omega⟩
    · exact ⟨15, rfl, rfl, by omega, by omega⟩
    · exact ⟨2, rfl, rfl, by omega, by omega⟩
  obtain ⟨tc, hcode, hname, h0, h256⟩ := hcn
  have hnil : pySplitDot url ≠ [] := by
    unfold pySplitDot
    intro h
    exact List.splitOnP_ne_nil _ _ (List.map_eq_nil_iff.mp h)
  have hgen : generate_request idv url rtype
      = .ok ([idv / 256, idv % 256, 0, 0, 0, 1, 0, 0, 0, 0, 0, 0]
          ++ (encLabels (pySplitDot url) ++ [0, 0, tc, 0, 1])) := by
    unfold generate_request
    rw [generate_header_ok idv hid, ebind_ok,
      generate_body_ok url rtype tc hcode ⟨h0, h256⟩ hval, ebind_ok]
  refine ⟨_, hgen, fun fuel hf => ?_⟩
  unfold parse_response
  rw [List.take_left' (by rfl), List.drop_left' (by rfl)]
  rw [parse_header_gen idv, ebind_ok]
  rw [show (encLabels (pySplitDot url) ++ [0, 0, tc, 0, 1] : List Nat)
      = encLabels (pySplitDot url) ++ 0 :: [0, tc, 0, 1] from rfl]
  rw [parse_body_enc (pySplitDot url) tc rtype fuel _ hval hnil hf hname rfl rfl rfl rfl,
    ebind_ok, joinDot_pySplitDot]

theorem c5_roundtrip_witness :
    (0 : Nat) < 65536 ∧ (("A" : String) = "A" ∨ ("A" : String) = "AAAA" ∨
      ("A" : String) = "MX" ∨ ("A" : String) = "NS") ∧
    validL (pySplitDot "example.com") ∧
    (∃ req, generate_request 0 "example.com" "A" = .ok req ∧
      ∀ fuel, (pySplitDot "example.com").length + 1 ≤ fuel →
        parse_response fuel req = .ok
          (DnsResponse.mk (DnsHeader.mk 0 0 0 0 0 0 0 0 0 1 0 0 0)
            (DnsBody.mk (some [.q "example.com" "A" 1]) none none none))) :=
  ⟨by decide, Or.inl rfl, by decide,
    c5_roundtrip 0 "example.com" "A" (by decide) (Or.inl rfl) (by decide)⟩
